import Mathlib

/-!
Verification of the deferred webhook delivery subsystem of the
invoice-bot-api repository.

The embedding follows the JavaScript source:
* `src/utils/jobManager.js` — the Timer Store operations (`readJobs`,
  `addOrUpdateJob`, `removeJob`, `getExpiredJobs`, `markJobsCompleted`,
  `getAllJobs`, `getJobByTripId`, `scheduleRetry`, `getPendingRetries`).
* `src/utils/cronJobs.js` (retry-capable variant) — the poll cycle
  (`processExpiredJobs`, `processExpiredJob`, `isRetryableError`).
* `src/utils/timerHelpers.js` — `parseDuration`.
* `src/controllers/start-timer.controller.js` — `startTimer`.

The database table `webhook_timers` is modelled as a list of rows; SQL
`UPDATE ... WHERE` statements become guarded maps over the list, `DELETE`
becomes a filter, `SELECT ... ORDER BY` becomes filter + stable sort.
Timestamps are epoch milliseconds (`Int`); `NOW()` / `Date.now()` are
passed in explicitly as a `now` parameter.  The outbound HTTP layer
(axios) is modelled as an oracle `HttpRequest → AxiosResult`.
-/

namespace InvoiceBot

/-- Timer status, from the `status` column of `webhook_timers` as used by
`jobManager.js` (`active`, `pending_retry`, `completed`, `expired`). -/
inductive Status where
  | active
  | pending_retry
  | completed
  | expired
deriving DecidableEq, Repr

/-- A row of the `webhook_timers` table. - -/
structure Row where
  id : String
  tripId : String
  webhookUrl : String
  senderId : Option String
  deadline : Int
  status : Status
  retryCount : Nat
  lastRetryAt : Option Int
  nextRetryAt : Option Int
  createdAt : Int
  updatedAt : Int
deriving DecidableEq, Repr

/-- The `webhook_timers` table. -/
abbrev Store := List Row

/-- The `users` table, abstracted to the one lookup the timer subsystem
performs (`LEFT JOIN users u ON wt.sender_id = u.id` selecting
`u.phone_number`): a map from user id to phone number. -/
abbrev UserDir := String → Option String

/-- A row is in-flight when its status is `active` or `pending_retry`
(the guard `status IN ('active', 'pending_retry')` of the SQL updates). -/
def inFlight (r : Row) : Bool :=
  r.status = Status.active || r.status = Status.pending_retry

/-! ### Stable sort by an integer key (SQL `ORDER BY ... ASC`) -/

def insertByKey (key : Row → Int) (r : Row) : List Row → List Row
  | [] => [r]
  | x :: xs =>
      if key r < key x then r :: x :: xs else x :: insertByKey key r xs

def sortByKey (key : Row → Int) : List Row → List Row
  | [] => []
  | x :: xs => insertByKey key x (sortByKey key xs)

/-! ### JobManager: mutating operations (`src/utils/jobManager.js`) -/

/-- `JobManager.addOrUpdateJob(tripId, webhookUrl, senderId, durationMs)`.

Checks for an existing row with `trip_id = tripId AND status = 'active'`.
If one exists, updates `webhook_url`, `sender_id`, `deadline_timestamp`,
`updated_at` on every such row (the SQL `UPDATE ... WHERE trip_id = ? AND
status = 'active'`); otherwise inserts a fresh row with `status =
'active'`.  `newId` stands for the generated `nanoid`; `now` for
`Date.now()` / `NOW()`.  Returns the new store and the `jobData` object. -/
def addOrUpdateJob (now : Int) (newId tripId webhookUrl : String)
    (senderId : Option String) (durationMs : Int) (s : Store) : Store × Row :=
  let deadline := now + durationMs
  let existing := s.filter (fun r => r.tripId = tripId && r.status = Status.active)
  match existing with
  | e :: _ =>
      let s' := s.map (fun r =>
        if r.tripId = tripId && r.status = Status.active then
          { r with webhookUrl := webhookUrl, senderId := senderId,
                   deadline := deadline, updatedAt := now }
        else r)
      (s', { e with webhookUrl := webhookUrl, senderId := senderId,
                    deadline := deadline, updatedAt := now })
  | [] =>
      let row : Row :=
        { id := newId, tripId := tripId, webhookUrl := webhookUrl,
          senderId := senderId, deadline := deadline, status := Status.active,
          retryCount := 0, lastRetryAt := none, nextRetryAt := none,
          createdAt := now, updatedAt := now }
      (s ++ [row], row)

/-- `JobManager.removeJob(tripId)`: `DELETE FROM webhook_timers WHERE
trip_id = ? AND status = 'active'`; returns whether any row was removed. -/
def removeJob (tripId : String) (s : Store) : Store × Bool :=
  (s.filter (fun r => !(r.tripId = tripId && r.status = Status.active)),
   s.any (fun r => r.tripId = tripId && r.status = Status.active))

/-- `JobManager.markJobsCompleted(tripIds)`: `UPDATE webhook_timers SET
status = 'completed' WHERE trip_id IN (...) AND status IN ('active',
'pending_retry')`; returns the affected-row count. -/
def markJobsCompleted (now : Int) (tripIds : List String) (s : Store) :
    Store × Nat :=
  (s.map (fun r =>
      if tripIds.contains r.tripId && inFlight r then
        { r with status := Status.completed, updatedAt := now }
      else r),
   (s.filter (fun r => tripIds.contains r.tripId && inFlight r)).length)

/-- The backoff ladder from `JobManager.scheduleRetry`:
`[1 * 60 * 1000, 5 * 60 * 1000, 15 * 60 * 1000]`. -/
def retryDelays : List Nat := [1 * 60 * 1000, 5 * 60 * 1000, 15 * 60 * 1000]

/-- `const maxRetries = 3` in `JobManager.scheduleRetry`. -/
def maxRetries : Nat := 3

/-- JavaScript `l[i] || l[l.length - 1]`: index into the ladder, falling
back to the last entry when the index is out of range (or the looked-up
value is falsy, i.e. `0`). -/
def jsIndexOr (l : List Nat) (i : Nat) : Nat :=
  match l.get? i with
  | some v => if v = 0 then (l.get? (l.length - 1)).getD 0 else v
  | none => (l.get? (l.length - 1)).getD 0

/-- The retry policy of `JobManager.scheduleRetry` as a pure function of
the attempt count, over an arbitrary ladder and maximum: `none` means
Terminal (the caller marks the timer `expired`), `some d` a backoff delay
of `d` milliseconds. -/
def nextDelayWith (delays : List Nat) (maxR : Nat) (retryCount : Nat) :
    Option Nat :=
  if retryCount ≥ maxR then none else some (jsIndexOr delays retryCount)

/-- The retry policy with the source's constants. -/
def nextDelay (retryCount : Nat) : Option Nat :=
  nextDelayWith retryDelays maxRetries retryCount

/-- `JobManager.scheduleRetry(tripId, retryCount)`.

If `retryCount >= maxRetries`, sets `status = 'expired'` on the trip's
in-flight rows and returns `false`.  Otherwise sets `status =
'pending_retry'`, `retry_count = retryCount + 1`, `last_retry_at = NOW()`,
`next_retry_at = NOW() + delay` on the trip's in-flight rows and returns
whether any row was affected. -/
def scheduleRetry (now : Int) (tripId : String) (retryCount : Nat)
    (s : Store) : Store × Bool :=
  if retryCount ≥ maxRetries then
    (s.map (fun r =>
        if r.tripId = tripId && inFlight r then
          { r with status := Status.expired, updatedAt := now }
        else r),
     false)
  else
    let nextRetryDelay := jsIndexOr retryDelays retryCount
    let nextRetryAt := now + (nextRetryDelay : Int)
    (s.map (fun r =>
        if r.tripId = tripId && inFlight r then
          { r with status := Status.pending_retry,
                   retryCount := retryCount + 1,
                   lastRetryAt := some now,
                   nextRetryAt := some nextRetryAt,
                   updatedAt := now }
        else r),
     s.any (fun r => r.tripId = tripId && inFlight r))

/-! ### JobManager: queries -/

/-- The job object produced by the `SELECT` queries of `jobManager.js`.
`retryCount`, `lastRetryAt`, `nextRetryAt` are selected only by
`getPendingRetries`; the other queries leave them absent (`none`), which
matters because the cron code reads `job.retryCount || 0`.  `phoneNumber`
comes from the `LEFT JOIN users`. -/
structure JobView where
  id : String
  tripId : String
  webhookUrl : String
  senderId : Option String
  deadline : Int
  status : Status
  retryCount : Option Nat
  lastRetryAt : Option Int
  nextRetryAt : Option Int
  createdAt : Int
  updatedAt : Int
  phoneNumber : Option String
deriving DecidableEq, Repr

/-- Row selected without the retry columns (`readJobs`, `getExpiredJobs`,
`getJobByTripId`). -/
def viewBasic (users : UserDir) (r : Row) : JobView :=
  { id := r.id, tripId := r.tripId, webhookUrl := r.webhookUrl,
    senderId := r.senderId, deadline := r.deadline, status := r.status,
    retryCount := none, lastRetryAt := none, nextRetryAt := none,
    createdAt := r.createdAt, updatedAt := r.updatedAt,
    phoneNumber := r.senderId.bind users }

/-- Row selected with the retry columns (`getPendingRetries`). -/
def viewRetry (users : UserDir) (r : Row) : JobView :=
  { id := r.id, tripId := r.tripId, webhookUrl := r.webhookUrl,
    senderId := r.senderId, deadline := r.deadline, status := r.status,
    retryCount := some r.retryCount, lastRetryAt := r.lastRetryAt,
    nextRetryAt := r.nextRetryAt,
    createdAt := r.createdAt, updatedAt := r.updatedAt,
    phoneNumber := r.senderId.bind users }

/-- `JobManager.readJobs()`: `SELECT ... WHERE wt.status = 'active' ORDER
BY wt.deadline_timestamp ASC`, joined with the requester's phone number. -/
def readJobs (users : UserDir) (s : Store) : List JobView :=
  (sortByKey (fun r => r.deadline)
      (s.filter (fun r => r.status = Status.active))).map (viewBasic users)

/-- `JobManager.getAllJobs()` delegates to `readJobs`. -/
def getAllJobs (users : UserDir) (s : Store) : List JobView :=
  readJobs users s

/-- `JobManager.getExpiredJobs()`: `SELECT ... WHERE wt.status = 'active'
AND wt.deadline_timestamp <= now ORDER BY wt.deadline_timestamp ASC`. -/
def getExpiredJobs (now : Int) (users : UserDir) (s : Store) : List JobView :=
  (sortByKey (fun r => r.deadline)
      (s.filter (fun r => r.status = Status.active && r.deadline ≤ now))).map
    (viewBasic users)

/-- `JobManager.getPendingRetries()`: `SELECT ... WHERE wt.status =
'pending_retry' AND wt.next_retry_at <= now ORDER BY wt.next_retry_at
ASC` (an SQL comparison against a `NULL` `next_retry_at` is not true). -/
def getPendingRetries (now : Int) (users : UserDir) (s : Store) :
    List JobView :=
  (sortByKey (fun r => r.nextRetryAt.getD 0)
      (s.filter (fun r =>
        r.status = Status.pending_retry &&
          match r.nextRetryAt with
          | some t => t ≤ now
          | none => false))).map (viewRetry users)

/-- `JobManager.getJobByTripId(tripId)`: `SELECT ... WHERE wt.trip_id = ?
AND wt.status = 'active' LIMIT 1`, or `null`. -/
def getJobByTripId (tripId : String) (users : UserDir) (s : Store) :
    Option JobView :=
  (s.filter (fun r => r.tripId = tripId && r.status = Status.active)).head?.map
    (viewBasic users)

/-! ### Delivery client and poll cycle (`src/utils/cronJobs.js`,
retry-capable variant) -/

/-- An ISO-8601 timestamp (`Date.prototype.toISOString`), modelled as the
underlying epoch-millisecond instant. -/
structure IsoTime where
  ms : Int
deriving DecidableEq, Repr

def isoOf (t : Int) : IsoTime := ⟨t⟩

/-- The webhook payload built by `CronJobManager.processExpiredJob`. -/
structure Payload where
  tripId : String
  phoneNumber : Option String
  message : String
  timestamp : IsoTime
  originalDeadline : IsoTime
  retryCount : Nat
  isRetry : Bool
deriving DecidableEq, Repr

inductive Method where
  | post
deriving DecidableEq, Repr

/-- The outbound HTTP request issued by `axios.post(webhookUrl, payload,
{ timeout: 30000, headers: ... })`. -/
structure HttpRequest where
  method : Method
  url : String
  body : Payload
  timeoutMs : Nat
  contentType : String
  userAgent : String
deriving DecidableEq, Repr

/-- JavaScript `phoneNumber || null`: an absent or empty (falsy) phone
number becomes `null`. -/
def jsOrNull (v : Option String) : Option String :=
  match v with
  | some p => if p = "" then none else some p
  | none => none

/-- The payload of `processExpiredJob` for a given job at time `now`
(`new Date()` / `new Date(deadline)`); `retryCount = 0` is the
destructuring default for jobs selected without the retry columns. -/
def webhookPayload (now : Int) (job : JobView) : Payload :=
  let rc := job.retryCount.getD 0
  { tripId := job.tripId
    phoneNumber := jsOrNull job.phoneNumber
    message := "Timer selesai"
    timestamp := isoOf now
    originalDeadline := isoOf job.deadline
    retryCount := rc
    isRetry := rc > 0 }

def webhookRequest (now : Int) (job : JobView) : HttpRequest :=
  { method := Method.post
    url := job.webhookUrl
    body := webhookPayload now job
    timeoutMs := 30000
    contentType := "application/json"
    userAgent := "Invoice-Bot-Timer-Webhook/1.0" }

/-- Outcome of one `axios.post` call: either the promise resolves with a
response (`ok status data`), or it rejects with an error object carrying
an optional error `code` (e.g. `ECONNREFUSED`), an optional
`response.status`, and a message. -/
inductive AxiosResult where
  | ok (status : Nat) (data : String)
  | fail (code : Option String) (responseStatus : Option Nat) (message : String)
deriving DecidableEq, Repr

/-- The network environment: what each outbound request does. -/
abbrev Net := HttpRequest → AxiosResult

/-- The error object seen by `CronJobManager.isRetryableError`. -/
structure JsError where
  code : Option String
  responseStatus : Option Nat
deriving DecidableEq, Repr

/-- `CronJobManager.isRetryableError(error)`, branch for branch:
network codes are retryable; then `error.response.status >= 500` is
retryable; then a 4xx response is retryable only for 408 and 429;
anything else defaults to retryable. -/
def isRetryableError (e : JsError) : Bool :=
  if e.code = some "ECONNRESET" || e.code = some "ENOTFOUND" ||
      e.code = some "ECONNREFUSED" || e.code = some "TIMEOUT" then
    true
  else if (match e.responseStatus with
           | some st => decide (st ≥ 500)
           | none => false) then
    true
  else if (match e.responseStatus with
           | some st => decide (st ≥ 400) && decide (st < 500)
           | none => false) then
    e.responseStatus = some 408 || e.responseStatus = some 429
  else
    true

/-- The object returned by `CronJobManager.processExpiredJob` (it never
throws: both branches return a result object). -/
structure DeliveryReport where
  tripId : String
  success : Bool
  statusCode : Option Nat
  retryCount : Nat
  retryable : Option Bool
deriving DecidableEq, Repr

/-- `CronJobManager.processExpiredJob(job)`: build the payload, POST it,
and report success exactly when the response status is in `[200, 300)`;
on a rejected request report a failure tagged with
`isRetryableError`. -/
def processExpiredJob (now : Int) (net : Net) (job : JobView) :
    DeliveryReport :=
  let rc := job.retryCount.getD 0
  match net (webhookRequest now job) with
  | AxiosResult.ok st _ =>
      { tripId := job.tripId, success := 200 ≤ st && st < 300,
        statusCode := some st, retryCount := rc, retryable := none }
  | AxiosResult.fail code st _ =>
      { tripId := job.tripId, success := false, statusCode := st,
        retryCount := rc,
        retryable := some (isRetryableError ⟨code, st⟩) }

/-- Which `scheduleRetry` calls throw a store error.  The repository's
`scheduleRetry` rethrows after logging, so a throwing call leaves the
store unchanged and aborts the caller's loop. -/
abbrev StoreFaults := String → Bool

/-- The `for (const job of failedJobs) { await jobManager.scheduleRetry
(job.tripId, job.retryCount || 0) }` loop of
`CronJobManager.processExpiredJobs`.  A store error thrown by
`scheduleRetry` propagates out of the loop to the cycle's `catch`; the
second component records whether the loop was aborted. -/
def runFailedJobs (now : Int) (faults : StoreFaults) :
    List JobView → Store → Store × Bool
  | [], s => (s, false)
  | j :: rest, s =>
      if faults j.tripId then (s, true)
      else runFailedJobs now faults rest
        (scheduleRetry now j.tripId (j.retryCount.getD 0) s).1

/-- The due set of one poll cycle: `[...expiredJobs, ...pendingRetries]`. -/
def cycleDueJobs (now : Int) (users : UserDir) (s : Store) : List JobView :=
  getExpiredJobs now users s ++ getPendingRetries now users s

/-- The webhook requests a poll cycle issues (one per due job, via
`Promise.allSettled(allJobs.map(job => this.processExpiredJob(job)))`). -/
def cycleRequests (now : Int) (users : UserDir) (s : Store) :
    List HttpRequest :=
  (cycleDueJobs now users s).map (webhookRequest now)

/-- `CronJobManager.processExpiredJobs()`: fetch the due set, return early
if empty, deliver all jobs, partition the settled results by
`result.value.success`, bulk-complete the successes, then loop
`scheduleRetry` over the failures.  Any thrown error (modelled here for
the `scheduleRetry` loop via `faults`) is caught and logged by the
enclosing `try/catch`, so the cycle itself never throws. -/
def processExpiredJobs (now : Int) (users : UserDir) (net : Net)
    (faults : StoreFaults) (s : Store) : Store :=
  let allJobs := cycleDueJobs now users s
  if allJobs.isEmpty then s
  else
    let results := allJobs.map (fun j => (j, processExpiredJob now net j))
    let successfulJobs := (results.filter (fun p => p.2.success)).map Prod.fst
    let failedJobs := (results.filter (fun p => !p.2.success)).map Prod.fst
    let s1 :=
      if successfulJobs.isEmpty then s
      else (markJobsCompleted now (successfulJobs.map JobView.tripId) s).1
    (runFailedJobs now faults failedJobs s1).1

/-! ### Duration parsing (`src/utils/timerHelpers.js`) -/

/-- `\d` of the duration regex. -/
def isDigitChar (c : Char) : Bool := '0' ≤ c && c ≤ '9'

/-- `duration.trim().toLowerCase()`: strip whitespace from both ends,
then lowercase, as a character list. -/
def jsClean (s : String) : List Char :=
  ((s.data.dropWhile Char.isWhitespace).reverse.dropWhile
      Char.isWhitespace).reverse.map Char.toLower

/-- The anchored match of `/^(\d+(?:\.\d+)?)(s|m|h|d)$/` on the cleaned
character list: returns the integer digits, the (possibly empty)
fraction digits, and the unit character.  The backtracking-free regex is
implemented directly: a maximal digit prefix, then either a dot followed
by a maximal digit run and a final unit character, or a final unit
character. -/
def matchDur (cs : List Char) : Option (List Char × List Char × Char) :=
  let ds := cs.takeWhile isDigitChar
  let rest := cs.dropWhile isDigitChar
  if ds.isEmpty then none
  else
    match rest with
    | [] => none
    | c :: rest2 =>
        if c = '.' then
          let fs := rest2.takeWhile isDigitChar
          let rest3 := rest2.dropWhile isDigitChar
          if fs.isEmpty then none
          else
            match rest3 with
            | [u] => if u = 's' || u = 'm' || u = 'h' || u = 'd' then
                       some (ds, fs, u)
                     else none
            | _ => none
        else
          match rest2 with
          | [] => if c = 's' || c = 'm' || c = 'h' || c = 'd' then
                    some (ds, [], c)
                  else none
          | _ => none

/-- Numeric value of a digit string. -/
def digitsVal (cs : List Char) : Nat :=
  cs.foldl (fun n c => n * 10 + (c.toNat - 48)) 0

/-- `parseFloat(match[1])` for the matched `intDigits.fracDigits`
number, as an exact rational. -/
def parseFloatVal (ds fs : List Char) : ℚ :=
  (digitsVal ds : ℚ) + (digitsVal fs : ℚ) / (10 : ℚ) ^ fs.length

/-- The unit multiplier of the `switch (unit)` (the `default` branch is
unreachable for matched input). -/
def unitMult (u : Char) : Nat :=
  if u = 's' then 1000
  else if u = 'm' then 60 * 1000
  else if u = 'h' then 60 * 60 * 1000
  else if u = 'd' then 24 * 60 * 60 * 1000
  else 0

/-- `parseDuration(duration)`: clean, match the regex, reject a
non-positive value, and return `Math.floor(value * multiplier)`
milliseconds.  The matched number is the exact nonnegative rational
`parseFloatVal ds fs = digitsVal (ds ++ fs) / 10 ^ fs.length` (the regex
admits no sign, exponent, infinity or NaN), so `value <= 0` is the test
`digitsVal (ds ++ fs) = 0` and `Math.floor(value * multiplier)` is the
integer division below; `parseDuration_value_bridge` proves both
identifications against the rational value. -/
def parseDuration (duration : String) : Except String Nat :=
  let cleanDuration := jsClean duration
  match matchDur cleanDuration with
  | none => Except.error "Invalid duration format. Use formats like: 15s, 30m, 2h, 1d"
  | some (ds, fs, u) =>
      if digitsVal (ds ++ fs) = 0 then
        Except.error "Duration must be greater than 0"
      else Except.ok (digitsVal (ds ++ fs) * unitMult u / 10 ^ fs.length)

/-! ### `startTimer` controller
(`src/controllers/start-timer.controller.js`) -/

inductive TimerResponse where
  | badRequest (error message : String)
  | ok (tripId : String)
deriving DecidableEq, Repr

/-- The store-relevant behaviour of the `startTimer` controller: parse
the duration first (absent duration means the 15-minute default) and
answer 400 without touching the Timer Store on a parse error; otherwise
resolve `senderId` from the phone number and call
`jobManager.addOrUpdateJob`. -/
def startTimer (now : Int) (newId : String) (users : UserDir)
    (tripId webhookUrl : String) (phoneNumber : Option String)
    (duration : Option String) (s : Store) : TimerResponse × Store :=
  let parsed : Except String Nat :=
    match duration with
    | some d => parseDuration d
    | none => Except.ok (15 * 60 * 1000)
  match parsed with
  | Except.error msg => (TimerResponse.badRequest "Invalid duration" msg, s)
  | Except.ok durationMs =>
      let senderId := phoneNumber.bind users
      let res := addOrUpdateJob now newId tripId webhookUrl senderId
        (durationMs : Int) s
      (TimerResponse.ok res.2.tripId, res.1)

/-! ### Operation alphabet for reachability and invariants -/

/-- The store-mutating entry points of the subsystem: the lifecycle API
(`addOrUpdateJob` via the start-timer endpoint, `removeJob` via cancel)
and the scheduler's transitions (`markJobsCompleted`, `scheduleRetry`,
and whole poll cycles). -/
inductive Op where
  | start (now : Int) (newId tripId webhookUrl : String)
      (senderId : Option String) (durationMs : Int)
  | cancel (tripId : String)
  | complete (now : Int) (tripIds : List String)
  | retry (now : Int) (tripId : String) (retryCount : Nat)
  | cycle (now : Int) (users : UserDir) (net : Net) (faults : StoreFaults)

def applyOp (s : Store) : Op → Store
  | Op.start now newId tripId url sid dur =>
      (addOrUpdateJob now newId tripId url sid dur s).1
  | Op.cancel t => (removeJob t s).1
  | Op.complete now ts => (markJobsCompleted now ts s).1
  | Op.retry now t rc => (scheduleRetry now t rc s).1
  | Op.cycle now users net faults => processExpiredJobs now users net faults s

def runOps (s : Store) (ops : List Op) : Store := ops.foldl applyOp s

/-! ### Concrete instances used by counterexamples and witnesses -/

/-- An empty `users` table. -/
def noUsers : UserDir := fun _ => none

/-- A webhook endpoint that always answers HTTP 500 (axios rejects with
`error.response.status = 500`). -/
def net500 : Net := fun _ =>
  AxiosResult.fail none (some 500) "Request failed with status code 500"

/-- A webhook endpoint that always answers HTTP 404. -/
def net404 : Net := fun _ =>
  AxiosResult.fail none (some 404) "Request failed with status code 404"

/-- A Timer Store that never fails. -/
def noFaults : StoreFaults := fun _ => false

/-- A Timer Store whose `scheduleRetry` throws for trip `T1`. -/
def faultT1 : StoreFaults := fun t => t = "T1"

/-- An active row, for building concrete stores. -/
def mkActiveRow (id tripId url : String) (deadline : Int) : Row :=
  { id := id, tripId := tripId, webhookUrl := url, senderId := none,
    deadline := deadline, status := Status.active, retryCount := 0,
    lastRetryAt := none, nextRetryAt := none, createdAt := 0, updatedAt := 0 }

/-- Start trip `T`, let one poll cycle fail its delivery (moving the row
to `pending_retry`), then start trip `T` again. -/
def opsStartRetryStart : List Op :=
  [ Op.start 0 "A" "T" "http://hook.one" none 1000,
    Op.cycle 1000 noUsers net500 noFaults,
    Op.start 2000 "B" "T" "http://hook.two" none 1000 ]

/-- Trip `T` whose webhook always answers 500, polled at the four
instants at which it is due (deadline, then after each backoff delay). -/
def opsFourFailingCycles : List Op :=
  [ Op.start 0 "A" "T" "http://hook.one" none 0,
    Op.cycle 0 noUsers net500 noFaults,
    Op.cycle 60000 noUsers net500 noFaults,
    Op.cycle 360000 noUsers net500 noFaults,
    Op.cycle 1260000 noUsers net500 noFaults ]

/-- Two expired active timers, `T1` before `T2`. -/
def storeTwoDue : Store :=
  [ mkActiveRow "A" "T1" "http://hook.one" 10,
    mkActiveRow "B" "T2" "http://hook.two" 20 ]

/-- A pending-retry row for trip `T`, retry count 1, due again at
instant 60000. -/
def rowPendingT : Row :=
  { id := "A", tripId := "T", webhookUrl := "http://hook.one",
    senderId := none, deadline := 0, status := Status.pending_retry,
    retryCount := 1, lastRetryAt := some 0, nextRetryAt := some 60000,
    createdAt := 0, updatedAt := 0 }

/-- A store holding only `rowPendingT`. -/
def storePendingT : Store := [rowPendingT]

/-- A completed row for trip `T`. -/
def rowDoneT : Row := { rowPendingT with id := "D", status := Status.completed }

/-- `rowPendingT` after retry exhaustion at instant 0. -/
def rowExpiredT : Row := { rowPendingT with status := Status.expired, updatedAt := 0 }

/-! ### Invariant predicates -/

/-- Every row's `retry_count` is at most `maxRetries`. -/
def rcBound (s : Store) : Prop := ∀ r ∈ s, r.retryCount ≤ maxRetries

/-- Number of rows for `tripId = t` in status `active`. -/
def activeCount (t : String) (s : Store) : Nat :=
  s.countP (fun r => r.tripId = t && r.status = Status.active)

/-- Number of rows for `tripId = t` in status `active` or
`pending_retry`. -/
def inFlightCount (t : String) (s : Store) : Nat :=
  s.countP (fun r => r.tripId = t && inFlight r)

/-- At most one `active` row per trip identifier. -/
def atMostOneActive (s : Store) : Prop := ∀ t, activeCount t s ≤ 1

/-- Whether one axios outcome counts as a delivery success for the poll
cycle (`response.status` in `[200, 300)`; every rejection is a failure). -/
def successOf : AxiosResult → Bool
  | AxiosResult.ok st _ => 200 ≤ st && st < 300
  | AxiosResult.fail _ _ _ => false

/-- The duration format stated by the spec, read off the cleaned
(trimmed, lowercased) input: decimal digits, an optional fraction, and a
unit in `{s, m, h, d}`, with a positive numeric value.  This definition
follows the spec's words, to be compared with `parseDuration`, which
follows the source. -/
def specDurationForm (d : String) : Prop :=
  ∃ (ds fs : List Char) (u : Char),
    ds ≠ [] ∧ (∀ c ∈ ds, isDigitChar c) ∧ (∀ c ∈ fs, isDigitChar c) ∧
    (u = 's' ∨ u = 'm' ∨ u = 'h' ∨ u = 'd') ∧
    jsClean d = ds ++ (if fs.isEmpty then [] else '.' :: fs) ++ [u] ∧
    digitsVal (ds ++ fs) ≠ 0

/-! ### Helper lemmas -/

theorem mem_insertByKey (key : Row → Int) (r a : Row) (l : List Row) :
    a ∈ insertByKey key r l ↔ a = r ∨ a ∈ l := by
  induction l with
  | nil => simp [insertByKey]
  | cons x xs ih =>
      simp only [insertByKey]
      by_cases h : key r < key x
      · simp [h, List.mem_cons]
      · simp [h, List.mem_cons, ih]
        tauto

theorem mem_sortByKey (key : Row → Int) (a : Row) (l : List Row) :
    a ∈ sortByKey key l ↔ a ∈ l := by
  induction l with
  | nil => simp [sortByKey]
  | cons x xs ih => simp [sortByKey, mem_insertByKey, ih, List.mem_cons]

/-- Every due job of a poll cycle originates from a row of the store that
is currently `active` or `pending_retry`. -/
theorem cycleDueJobs_from_inflight (now : Int) (users : UserDir) (s : Store)
    (j : JobView) (hj : j ∈ cycleDueJobs now users s) :
    ∃ r ∈ s, j.id = r.id ∧
      (r.status = Status.active ∨ r.status = Status.pending_retry) := by
  rcases List.mem_append.mp hj with h | h
  · rcases List.mem_map.mp h with ⟨r, hr, rfl⟩
    rw [mem_sortByKey] at hr
    rcases List.mem_filter.mp hr with ⟨hmem, hcond⟩
    simp only [Bool.and_eq_true, decide_eq_true_eq] at hcond
    exact ⟨r, hmem, rfl, Or.inl hcond.1⟩
  · rcases List.mem_map.mp h with ⟨r, hr, rfl⟩
    rw [mem_sortByKey] at hr
    rcases List.mem_filter.mp hr with ⟨hmem, hcond⟩
    simp only [Bool.and_eq_true, decide_eq_true_eq] at hcond
    exact ⟨r, hmem, rfl, Or.inr hcond.1⟩

/-! ### Preservation combinators over the operation alphabet -/

theorem runFailedJobs_preserves (P : Store → Prop)
    (hR : ∀ now t rc s, P s → P (scheduleRetry now t rc s).1)
    (now : Int) (faults : StoreFaults) :
    ∀ (jobs : List JobView) (s : Store),
      P s → P (runFailedJobs now faults jobs s).1 := by
  intro jobs
  induction jobs with
  | nil => intro s h; exact h
  | cons j rest ih =>
      intro s h
      by_cases hf : faults j.tripId = true
      · simpa [runFailedJobs, hf] using h
      · simpa [runFailedJobs, hf] using
          ih _ (hR now j.tripId (j.retryCount.getD 0) s h)

theorem processExpiredJobs_preserves (P : Store → Prop)
    (hC : ∀ now ts s, P s → P (markJobsCompleted now ts s).1)
    (hR : ∀ now t rc s, P s → P (scheduleRetry now t rc s).1)
    (now : Int) (users : UserDir) (net : Net) (faults : StoreFaults)
    (s : Store) (h : P s) :
    P (processExpiredJobs now users net faults s) := by
  simp only [processExpiredJobs]
  split
  · exact h
  · apply runFailedJobs_preserves P hR
    split
    · exact h
    · exact hC _ _ _ h

theorem applyOp_preserves (P : Store → Prop)
    (hS : ∀ now id t url sid dur s,
      P s → P (addOrUpdateJob now id t url sid dur s).1)
    (hD : ∀ t s, P s → P (removeJob t s).1)
    (hC : ∀ now ts s, P s → P (markJobsCompleted now ts s).1)
    (hR : ∀ now t rc s, P s → P (scheduleRetry now t rc s).1) :
    ∀ (s : Store) (op : Op), P s → P (applyOp s op) := by
  intro s op h
  cases op with
  | start now id t url sid dur => exact hS now id t url sid dur s h
  | cancel t => exact hD t s h
  | complete now ts => exact hC now ts s h
  | retry now t rc => exact hR now t rc s h
  | cycle now users net faults =>
      exact processExpiredJobs_preserves P hC hR now users net faults s h

theorem runOps_preserves (P : Store → Prop)
    (hS : ∀ now id t url sid dur s,
      P s → P (addOrUpdateJob now id t url sid dur s).1)
    (hD : ∀ t s, P s → P (removeJob t s).1)
    (hC : ∀ now ts s, P s → P (markJobsCompleted now ts s).1)
    (hR : ∀ now t rc s, P s → P (scheduleRetry now t rc s).1) :
    ∀ (ops : List Op) (s : Store), P s → P (runOps s ops) := by
  intro ops
  induction ops with
  | nil => intro s h; exact h
  | cons op rest ih =>
      intro s h
      exact ih _ (applyOp_preserves P hS hD hC hR s op h)

/-! ### Invariant: retry counts stay at or below the maximum -/

theorem addOrUpdateJob_rcBound (now : Int) (id t url : String)
    (sid : Option String) (dur : Int) (s : Store) (h : rcBound s) :
    rcBound (addOrUpdateJob now id t url sid dur s).1 := by
  cases hE : s.filter (fun r => r.tripId = t && r.status = Status.active) with
  | cons e es =>
      intro r hr
      simp only [addOrUpdateJob, hE] at hr
      rcases List.mem_map.mp hr with ⟨x, hx, rfl⟩
      split
      · exact h x hx
      · exact h x hx
  | nil =>
      intro r hr
      simp only [addOrUpdateJob, hE] at hr
      rcases List.mem_append.mp hr with hx | hx
      · exact h r hx
      · rcases List.mem_singleton.mp hx with rfl
        simp [maxRetries]

theorem removeJob_rcBound (t : String) (s : Store) (h : rcBound s) :
    rcBound (removeJob t s).1 := by
  intro r hr
  exact h r (List.mem_of_mem_filter hr)

theorem markJobsCompleted_rcBound (now : Int) (ts : List String) (s : Store)
    (h : rcBound s) : rcBound (markJobsCompleted now ts s).1 := by
  intro r hr
  rcases List.mem_map.mp hr with ⟨x, hx, rfl⟩
  split
  · exact h x hx
  · exact h x hx

theorem scheduleRetry_rcBound (now : Int) (t : String) (rc : Nat) (s : Store)
    (h : rcBound s) : rcBound (scheduleRetry now t rc s).1 := by
  unfold scheduleRetry
  split
  · intro r hr
    rcases List.mem_map.mp hr with ⟨x, hx, rfl⟩
    split
    · exact h x hx
    · exact h x hx
  · next hlt =>
      intro r hr
      rcases List.mem_map.mp hr with ⟨x, hx, rfl⟩
      split
      · simp only [maxRetries] at hlt ⊢
        omega
      · exact h x hx

theorem runOps_rcBound (ops : List Op) (s : Store) (h : rcBound s) :
    rcBound (runOps s ops) :=
  runOps_preserves rcBound addOrUpdateJob_rcBound removeJob_rcBound
    markJobsCompleted_rcBound scheduleRetry_rcBound ops s h

/-! ### Invariant: at most one active row per trip -/

theorem countP_map_le_of_imp (p : Row → Bool) (f : Row → Row) (s : List Row)
    (h : ∀ r, p (f r) = true → p r = true) :
    (s.map f).countP p ≤ s.countP p := by
  rw [List.countP_map]
  exact List.countP_mono_left (fun a _ ha => h a ha)

theorem addOrUpdateJob_atMostOneActive (now : Int) (id t url : String)
    (sid : Option String) (dur : Int) (s : Store) (h : atMostOneActive s) :
    atMostOneActive (addOrUpdateJob now id t url sid dur s).1 := by
  cases hE : s.filter (fun r => r.tripId = t && r.status = Status.active) with
  | cons e es =>
      intro u
      simp only [addOrUpdateJob, hE, activeCount]
      rw [List.countP_map]
      rw [List.countP_congr (q := fun r =>
        decide (r.tripId = u) && decide (r.status = Status.active)) ?_]
      · exact h u
      · intro x _
        by_cases hc : (decide (x.tripId = t) && decide (x.status = Status.active)) = true
        · simp [Function.comp, hc]
        · simp [Function.comp, hc]
  | nil =>
      intro u
      simp only [addOrUpdateJob, hE, activeCount]
      rw [List.countP_append, List.countP_singleton]
      by_cases hu : u = t
      · subst hu
        have h0 : s.countP
            (fun r => decide (r.tripId = u) && decide (r.status = Status.active)) = 0 := by
          rw [List.countP_eq_length_filter, hE]
          rfl
        rw [h0]
        split <;> simp
      · have hut : ¬(t = u) := fun hh => hu hh.symm
        have : s.countP
            (fun r => decide (r.tripId = u) && decide (r.status = Status.active)) ≤ 1 := h u
        simp only [hut, decide_eq_true_eq]
        simpa [hut] using this

theorem removeJob_atMostOneActive (t : String) (s : Store)
    (h : atMostOneActive s) : atMostOneActive (removeJob t s).1 := by
  intro u
  exact le_trans ((List.filter_sublist s).countP_le _) (h u)

theorem markJobsCompleted_atMostOneActive (now : Int) (ts : List String)
    (s : Store) (h : atMostOneActive s) :
    atMostOneActive (markJobsCompleted now ts s).1 := by
  intro u
  refine le_trans (countP_map_le_of_imp _ _ s ?_) (h u)
  intro r hr
  split at hr
  · simp at hr
  · exact hr

theorem scheduleRetry_atMostOneActive (now : Int) (t : String) (rc : Nat)
    (s : Store) (h : atMostOneActive s) :
    atMostOneActive (scheduleRetry now t rc s).1 := by
  unfold scheduleRetry
  split
  · intro u
    refine le_trans (countP_map_le_of_imp _ _ s ?_) (h u)
    intro r hr
    split at hr
    · simp at hr
    · exact hr
  · intro u
    refine le_trans (countP_map_le_of_imp _ _ s ?_) (h u)
    intro r hr
    split at hr
    · simp at hr
    · exact hr

theorem runOps_atMostOneActive (ops : List Op) (s : Store)
    (h : atMostOneActive s) : atMostOneActive (runOps s ops) :=
  runOps_preserves atMostOneActive addOrUpdateJob_atMostOneActive
    removeJob_atMostOneActive markJobsCompleted_atMostOneActive
    scheduleRetry_atMostOneActive ops s h

/-! ### Terminal rows are untouched by every operation -/

theorem inFlight_eq_false_of_terminal (r : Row)
    (hr : r.status = Status.completed ∨ r.status = Status.expired) :
    inFlight r = false := by
  rcases hr with h | h <;> simp [inFlight, h]

theorem addOrUpdateJob_mem_of_terminal (r : Row)
    (hr : r.status = Status.completed ∨ r.status = Status.expired)
    (now : Int) (id t url : String) (sid : Option String) (dur : Int)
    (s : Store) (h : r ∈ s) : r ∈ (addOrUpdateJob now id t url sid dur s).1 := by
  cases hE : s.filter (fun x => x.tripId = t && x.status = Status.active) with
  | cons e es =>
      simp only [addOrUpdateJob, hE]
      refine List.mem_map.mpr ⟨r, h, ?_⟩
      rcases hr with h' | h' <;> simp [h']
  | nil =>
      simp only [addOrUpdateJob, hE]
      exact List.mem_append_left _ h

theorem removeJob_mem_of_terminal (r : Row)
    (hr : r.status = Status.completed ∨ r.status = Status.expired)
    (t : String) (s : Store) (h : r ∈ s) : r ∈ (removeJob t s).1 := by
  refine List.mem_filter.mpr ⟨h, ?_⟩
  rcases hr with h' | h' <;> simp [h']

theorem markJobsCompleted_mem_of_terminal (r : Row)
    (hr : r.status = Status.completed ∨ r.status = Status.expired)
    (now : Int) (ts : List String) (s : Store) (h : r ∈ s) :
    r ∈ (markJobsCompleted now ts s).1 := by
  have hf := inFlight_eq_false_of_terminal r hr
  exact List.mem_map.mpr ⟨r, h, by simp [markJobsCompleted, hf]⟩

theorem scheduleRetry_mem_of_terminal (r : Row)
    (hr : r.status = Status.completed ∨ r.status = Status.expired)
    (now : Int) (t : String) (rc : Nat) (s : Store) (h : r ∈ s) :
    r ∈ (scheduleRetry now t rc s).1 := by
  have hf := inFlight_eq_false_of_terminal r hr
  unfold scheduleRetry
  split
  · exact List.mem_map.mpr ⟨r, h, by simp [hf]⟩
  · exact List.mem_map.mpr ⟨r, h, by simp [hf]⟩

/-- `scheduleRetry` leaves rows of other trips exactly in place. -/
theorem scheduleRetry_mem_of_ne (r : Row) (now : Int) (t : String) (rc : Nat)
    (s : Store) (h : r ∈ s) (hne : r.tripId ≠ t) :
    r ∈ (scheduleRetry now t rc s).1 := by
  unfold scheduleRetry
  split
  · exact List.mem_map.mpr ⟨r, h, by simp [hne]⟩
  · exact List.mem_map.mpr ⟨r, h, by simp [hne]⟩

/-- A store error at job `j` aborts the failed-jobs loop: the jobs after
`j` are never processed, and the store is exactly the one produced by the
prefix before `j`. -/
theorem runFailedJobs_append_fault (now : Int) (faults : StoreFaults)
    (pre : List JobView) (j : JobView) (post : List JobView)
    (hpre : ∀ k ∈ pre, faults k.tripId = false)
    (hj : faults j.tripId = true) :
    ∀ s, runFailedJobs now faults (pre ++ j :: post) s
        = ((runFailedJobs now faults pre s).1, true) := by
  induction pre with
  | nil => intro s; simp [runFailedJobs, hj]
  | cons k ks ih =>
      intro s
      have hk : faults k.tripId = false := hpre k (List.mem_cons_self k ks)
      simp only [List.cons_append, runFailedJobs, hk]
      exact ih (fun x hx => hpre x (List.mem_cons_of_mem k hx)) _

/-- Rows whose trip is not touched by any job of the loop are carried
over exactly. -/
theorem runFailedJobs_mem_of_ne (now : Int) (faults : StoreFaults) :
    ∀ (jobs : List JobView) (s : Store) (r : Row), r ∈ s →
      (∀ k ∈ jobs, r.tripId ≠ k.tripId) →
      r ∈ (runFailedJobs now faults jobs s).1 := by
  intro jobs
  induction jobs with
  | nil => intro s r h _; exact h
  | cons k ks ih =>
      intro s r h hne
      by_cases hf : faults k.tripId = true
      · simpa [runFailedJobs, hf] using h
      · simp only [runFailedJobs, hf]
        exact ih _ r
          (scheduleRetry_mem_of_ne r now k.tripId (k.retryCount.getD 0) s h
            (hne k (List.mem_cons_self k ks)))
          (fun x hx => hne x (List.mem_cons_of_mem k hx))

/-- The success flag of one delivery is exactly the success of the
underlying HTTP outcome. -/
theorem processExpiredJob_success (now : Int) (net : Net) (j : JobView) :
    (processExpiredJob now net j).success
      = successOf (net (webhookRequest now j)) := by
  unfold processExpiredJob successOf
  cases net (webhookRequest now j) <;> rfl

/-- Normal form of a poll cycle: the settled results enter the
reconciliation only through each job's success flag. -/
theorem processExpiredJobs_eq (now : Int) (users : UserDir) (net : Net)
    (faults : StoreFaults) (s : Store) :
    processExpiredJobs now users net faults s =
      (if (cycleDueJobs now users s).isEmpty then s
       else
         (runFailedJobs now faults
           ((cycleDueJobs now users s).filter
             (fun j => !(processExpiredJob now net j).success))
           (if ((cycleDueJobs now users s).filter
                 (fun j => (processExpiredJob now net j).success)).isEmpty then s
            else (markJobsCompleted now
              (((cycleDueJobs now users s).filter
                 (fun j => (processExpiredJob now net j).success)).map
                   (fun j => j.tripId))
              s).1)).1) := by
  simp only [processExpiredJobs, List.filter_map, List.map_map,
    Function.comp_def, List.map_id']

/-! ### Duration parsing lemmas -/

theorem takeWhile_digits (ds rest : List Char)
    (hds : ∀ c ∈ ds, isDigitChar c = true)
    (hrest : ∀ c, rest.head? = some c → isDigitChar c = false) :
    (ds ++ rest).takeWhile isDigitChar = ds ∧
    (ds ++ rest).dropWhile isDigitChar = rest := by
  induction ds with
  | nil =>
      simp only [List.nil_append]
      cases rest with
      | nil => simp
      | cons c cs =>
          have hc := hrest c rfl
          constructor
          · simp [List.takeWhile_cons, hc]
          · simp [List.dropWhile_cons, hc]
  | cons d ds ih =>
      have hd := hds d (List.mem_cons_self d ds)
      obtain ⟨h1, h2⟩ := ih (fun c hc => hds c (List.mem_cons_of_mem d hc))
      constructor
      · simp [List.takeWhile_cons, hd, h1]
      · simp [List.dropWhile_cons, hd, h2]

theorem digitsVal_go (n : Nat) (cs : List Char) :
    cs.foldl (fun n c => n * 10 + (c.toNat - 48)) n
      = n * 10 ^ cs.length + digitsVal cs := by
  induction cs generalizing n with
  | nil => simp [digitsVal]
  | cons c cs ih =>
      simp only [List.foldl_cons, digitsVal, List.length_cons]
      rw [ih, ih (0 * 10 + (c.toNat - 48))]
      simp only [Nat.zero_mul, Nat.zero_add]
      rw [pow_succ]
      ring

theorem digitsVal_append (a b : List Char) :
    digitsVal (a ++ b) = digitsVal a * 10 ^ b.length + digitsVal b := by
  unfold digitsVal
  rw [List.foldl_append, digitsVal_go]
  rfl

theorem unit_not_digit (u : Char)
    (h : u = 's' ∨ u = 'm' ∨ u = 'h' ∨ u = 'd') : isDigitChar u = false := by
  rcases h with rfl | rfl | rfl | rfl <;> decide

theorem unit_ne_dot (u : Char)
    (h : u = 's' ∨ u = 'm' ∨ u = 'h' ∨ u = 'd') : ¬(u = '.') := by
  rcases h with rfl | rfl | rfl | rfl <;> decide

theorem parseFloatVal_eq (ds fs : List Char) :
    parseFloatVal ds fs = (digitsVal (ds ++ fs) : ℚ) / 10 ^ fs.length := by
  rw [digitsVal_append]
  unfold parseFloatVal
  have h10 : ((10 : ℚ) ^ fs.length) ≠ 0 := by positivity
  field_simp
  try push_cast
  try ring

/-- The matched number is the nonnegative rational
`digitsVal (ds ++ fs) / 10 ^ fs.length`, so the source's `value <= 0`
test is the integer test `digitsVal (ds ++ fs) = 0`, and
`Math.floor(value * multiplier)` is exact integer division. -/
theorem parseDuration_value_bridge (ds fs : List Char) (u : Char) :
    (parseFloatVal ds fs ≤ 0 ↔ digitsVal (ds ++ fs) = 0) ∧
    Int.toNat ⌊parseFloatVal ds fs * (unitMult u : ℚ)⌋
      = digitsVal (ds ++ fs) * unitMult u / 10 ^ fs.length := by
  have hpos : (0:ℚ) < (10 : ℚ) ^ fs.length := by positivity
  constructor
  · rw [parseFloatVal_eq]
    constructor
    · intro h
      rcases div_nonpos_iff.mp h with ⟨h1, h2⟩ | ⟨h1, h2⟩
      · linarith
      · exact_mod_cast le_antisymm h1 (Nat.cast_nonneg _)
    · intro h
      rw [h]
      simp
  · rw [parseFloatVal_eq]
    have hq : (digitsVal (ds ++ fs) : ℚ) / 10 ^ fs.length * (unitMult u : ℚ)
        = ((digitsVal (ds ++ fs) * unitMult u : ℕ) : ℚ)
          / ((10 ^ fs.length : ℕ) : ℚ) := by
      push_cast
      ring
    rw [hq, Int.floor_toNat, Nat.floor_div_eq_div]

theorem matchDur_eq_some (cs ds fs : List Char) (u : Char)
    (h : matchDur cs = some (ds, fs, u)) :
    ds ≠ [] ∧ (∀ c ∈ ds, isDigitChar c = true) ∧
    (∀ c ∈ fs, isDigitChar c = true) ∧
    (u = 's' ∨ u = 'm' ∨ u = 'h' ∨ u = 'd') ∧
    cs = ds ++ (if fs.isEmpty then [] else '.' :: fs) ++ [u] := by
  simp only [matchDur] at h
  by_cases hemp : (cs.takeWhile isDigitChar).isEmpty = true
  · rw [if_pos hemp] at h; cases h
  · rw [if_neg hemp] at h
    cases hrest : cs.dropWhile isDigitChar with
    | nil => rw [hrest] at h; cases h
    | cons c rest2 =>
        rw [hrest] at h
        dsimp only at h
        by_cases hc : c = '.'
        · rw [if_pos hc] at h
          by_cases hfe : (rest2.takeWhile isDigitChar).isEmpty = true
          · rw [if_pos hfe] at h; cases h
          · rw [if_neg hfe] at h
            cases hr3 : rest2.dropWhile isDigitChar with
            | nil => rw [hr3] at h; cases h
            | cons v tail =>
                cases tail with
                | cons x xs => rw [hr3] at h; cases h
                | nil =>
                    rw [hr3] at h
                    dsimp only at h
                    by_cases hu : (v = 's' || v = 'm' || v = 'h' || v = 'd') = true
                    · rw [if_pos hu] at h
                      cases h
                      simp only [Bool.or_eq_true, decide_eq_true_eq] at hu
                      have hfs : (rest2.takeWhile isDigitChar).isEmpty = false := by
                        cases hq : (rest2.takeWhile isDigitChar).isEmpty
                        · rfl
                        · exact absurd hq hfe
                      refine ⟨?_, ?_, ?_, ?_, ?_⟩
                      · intro hnil; rw [hnil] at hemp; exact hemp rfl
                      · intro x hx; exact List.mem_takeWhile_imp hx
                      · intro x hx; exact List.mem_takeWhile_imp hx
                      · tauto
                      · rw [if_neg (by rw [hfs]; exact fun hh => nomatch hh)]
                        have e1 : cs = List.takeWhile isDigitChar cs
                            ++ List.dropWhile isDigitChar cs :=
                          (List.takeWhile_append_dropWhile isDigitChar cs).symm
                        have e2 : rest2 = List.takeWhile isDigitChar rest2
                            ++ List.dropWhile isDigitChar rest2 :=
                          (List.takeWhile_append_dropWhile isDigitChar rest2).symm
                        conv_lhs => rw [e1, hrest, hc]
                        conv_lhs => rw [e2, hr3]
                        simp
                    · rw [if_neg hu] at h; cases h
        · rw [if_neg hc] at h
          cases rest2 with
          | cons x xs => cases h
          | nil =>
              dsimp only at h
              by_cases hu : (c = 's' || c = 'm' || c = 'h' || c = 'd') = true
              · rw [if_pos hu] at h
                cases h
                simp only [Bool.or_eq_true, decide_eq_true_eq] at hu
                refine ⟨?_, ?_, ?_, ?_, ?_⟩
                · intro hnil; rw [hnil] at hemp; exact hemp rfl
                · intro x hx; exact List.mem_takeWhile_imp hx
                · intro x hx; cases hx
                · tauto
                · have e1 : cs = List.takeWhile isDigitChar cs
                      ++ List.dropWhile isDigitChar cs :=
                    (List.takeWhile_append_dropWhile isDigitChar cs).symm
                  conv_lhs => rw [e1, hrest]
                  simp
              · rw [if_neg hu] at h; cases h

theorem matchDur_of_form (ds fs : List Char) (u : Char)
    (h1 : ds ≠ []) (h2 : ∀ c ∈ ds, isDigitChar c = true)
    (h3 : ∀ c ∈ fs, isDigitChar c = true)
    (h4 : u = 's' ∨ u = 'm' ∨ u = 'h' ∨ u = 'd') :
    matchDur (ds ++ (if fs.isEmpty then [] else '.' :: fs) ++ [u])
      = some (ds, fs, u) := by
  have hud : isDigitChar u = false := unit_not_digit u h4
  have hdsne : ds.isEmpty = false := by
    cases hq : ds.isEmpty
    · rfl
    · exact absurd (by simpa using hq) h1
  have huu : (u = 's' || u = 'm' || u = 'h' || u = 'd') = true := by
    simp only [Bool.or_eq_true, decide_eq_true_eq]
    tauto
  cases hfs : fs with
  | nil =>
      simp only [List.isEmpty_nil, if_true, List.append_nil]
      have hsplit := takeWhile_digits ds [u] h2
        (fun c hc => by cases hc; exact hud)
      simp only [matchDur]
      rw [hsplit.1, hsplit.2]
      simp only [hdsne, Bool.false_eq_true, if_false]
      try dsimp only
      rw [if_neg (unit_ne_dot u h4)]
      try dsimp only
      rw [if_pos huu]
  | cons f fs' =>
      subst hfs
      simp only [List.isEmpty_cons, Bool.false_eq_true, if_false]
      have hassoc : ds ++ ('.' :: f :: fs') ++ [u]
          = ds ++ '.' :: ((f :: fs') ++ [u]) := by
        simp
      rw [hassoc]
      have hsp1 := takeWhile_digits ds ('.' :: ((f :: fs') ++ [u])) h2
        (fun c hc => by cases hc; decide)
      have hsp2 := takeWhile_digits (f :: fs') [u] h3
        (fun c hc => by cases hc; exact hud)
      simp only [matchDur]
      rw [hsp1.1, hsp1.2]
      simp only [hdsne, Bool.false_eq_true, if_false]
      try dsimp only
      simp only [if_true]
      rw [hsp2.1, hsp2.2]
      simp only [List.isEmpty_cons, Bool.false_eq_true, if_false]
      try dsimp only
      rw [if_pos huu]

theorem parseDuration_ok_iff (d : String) :
    (∃ n, parseDuration d = Except.ok n) ↔ specDurationForm d := by
  constructor
  · rintro ⟨n, hn⟩
    simp only [parseDuration] at hn
    cases hm : matchDur (jsClean d) with
    | none => rw [hm] at hn; cases hn
    | some trip =>
        obtain ⟨ds, fs, u⟩ := trip
        rw [hm] at hn
        dsimp only at hn
        by_cases hv : digitsVal (ds ++ fs) = 0
        · rw [if_pos hv] at hn; cases hn
        · obtain ⟨h1, h2, h3, h4, h5⟩ := matchDur_eq_some (jsClean d) ds fs u hm
          exact ⟨ds, fs, u, h1, h2, h3, h4, h5, hv⟩
  · rintro ⟨ds, fs, u, h1, h2, h3, h4, h5, h6⟩
    have hm : matchDur (jsClean d) = some (ds, fs, u) := by
      rw [h5]
      exact matchDur_of_form ds fs u h1 h2 h3 h4
    refine ⟨digitsVal (ds ++ fs) * unitMult u / 10 ^ fs.length, ?_⟩
    simp only [parseDuration]
    rw [hm]
    dsimp only
    rw [if_neg h6]

/-! ### Claim C1 -/

/-- Claim C1 as stated is false at a concrete reachable input: start a
timer for trip `T`, let one poll cycle's delivery fail (the row moves to
`pending_retry`), then call `startOrRestart` for `T` again.  Because
`addOrUpdateJob` looks for an existing row with `status = 'active'` only,
it inserts a second row instead of reusing the `pending_retry` row, and
two rows for `T` are simultaneously in `{active, pending_retry}`. -/
theorem claim_C1_counterexample :
    (runOps [] opsStartRetryStart).map (fun r => (r.id, r.tripId, r.status))
        = [("A", "T", Status.pending_retry), ("B", "T", Status.active)] ∧
    inFlightCount "T" (runOps [] opsStartRetryStart) = 2 := by
  exact ⟨rfl, rfl⟩

/-- Claim C1, amended: for every sequence of operations, at most one row
per `tripId` is ever in status `active`, and starting a timer for a trip
that already has an *active* row updates that row in place (no insert).
A trip whose only in-flight row is `pending_retry`, however, gets a
second row on restart, so the bound does not extend to
`{active, pending_retry}`. -/
theorem claim_C1_amended :
    (∀ (ops : List Op) (s : Store), atMostOneActive s →
      atMostOneActive (runOps s ops)) ∧
    (∀ (now : Int) (id t url : String) (sid : Option String) (dur : Int)
        (s : Store), (∃ r ∈ s, r.tripId = t ∧ r.status = Status.active) →
      ((addOrUpdateJob now id t url sid dur s).1).length = s.length) := by
  constructor
  · exact fun ops s h => runOps_atMostOneActive ops s h
  · intro now id t url sid dur s hex
    rcases hex with ⟨r, hr, ht, hst⟩
    cases hE : s.filter (fun x => x.tripId = t && x.status = Status.active) with
    | nil =>
        exfalso
        have hmem : r ∈ s.filter (fun x => x.tripId = t && x.status = Status.active) :=
          List.mem_filter.mpr ⟨hr, by simp [ht, hst]⟩
        rw [hE] at hmem
        cases hmem
    | cons e es =>
        simp [addOrUpdateJob, hE]

theorem claim_C1_amended_witness :
    atMostOneActive (runOps [] opsStartRetryStart) ∧
    ((addOrUpdateJob 0 "B" "T1" "http://hook.two" none 5 storeTwoDue).1).length = 2 := by
  constructor
  · exact claim_C1_amended.1 opsStartRetryStart []
      (by intro t; simp [activeCount])
  · have h := claim_C1_amended.2 0 "B" "T1" "http://hook.two" none 5 storeTwoDue
      ⟨mkActiveRow "A" "T1" "http://hook.one" 10, by simp [storeTwoDue], rfl, rfl⟩
    simpa [storeTwoDue] using h

/-! ### Claim C2 -/

/-- Claim C2 is false at a concrete input: two timers `T1`, `T2` are due
in the same cycle and both deliveries fail (HTTP 500); the Timer Store
throws while scheduling `T1`'s retry.  Without the store fault the cycle
reconciles both timers to `pending_retry`, but with the fault the
failed-jobs loop aborts and the whole store is unchanged — in particular
`T2`, a remaining timer of the same cycle, is not reconciled. -/
theorem claim_C2_counterexample :
    (cycleDueJobs 100 noUsers storeTwoDue).map JobView.tripId = ["T1", "T2"] ∧
    (processExpiredJobs 100 noUsers net500 noFaults storeTwoDue).map
        (fun r => (r.tripId, r.status))
      = [("T1", Status.pending_retry), ("T2", Status.pending_retry)] ∧
    processExpiredJobs 100 noUsers net500 faultT1 storeTwoDue = storeTwoDue :=
  ⟨rfl, rfl, rfl⟩

/-- Claim C2, amended: a Timer Store failure while scheduling the retry
of one failed timer is caught at the cycle boundary (the loop's result is
still a store, the scheduler survives), but it aborts reconciliation of
the remaining failed timers of that cycle — the store ends exactly as the
successfully processed prefix left it.  No skipped timer's state is
advanced: every row whose trip is outside that prefix is carried over
unchanged, and if it is a due active row it is selected again by a later
cycle's expired-jobs query. -/
theorem claim_C2_amended (now : Int) (faults : StoreFaults)
    (pre post : List JobView) (j : JobView) (s : Store)
    (hpre : ∀ k ∈ pre, faults k.tripId = false)
    (hj : faults j.tripId = true) :
    runFailedJobs now faults (pre ++ j :: post) s
        = ((runFailedJobs now faults pre s).1, true) ∧
    (∀ r ∈ s, (∀ k ∈ pre, r.tripId ≠ k.tripId) →
      r ∈ (runFailedJobs now faults (pre ++ j :: post) s).1 ∧
      (∀ (now' : Int) (users : UserDir), r.status = Status.active →
        r.deadline ≤ now' →
        viewBasic users r ∈ getExpiredJobs now' users
          (runFailedJobs now faults (pre ++ j :: post) s).1)) := by
  have habort := runFailedJobs_append_fault now faults pre j post hpre hj s
  refine ⟨habort, ?_⟩
  intro r hr hne
  have hmem : r ∈ (runFailedJobs now faults (pre ++ j :: post) s).1 := by
    rw [habort]
    exact runFailedJobs_mem_of_ne now faults pre s r hr hne
  refine ⟨hmem, ?_⟩
  intro now' users hact hdl
  unfold getExpiredJobs
  refine List.mem_map.mpr ⟨r, ?_, rfl⟩
  rw [mem_sortByKey]
  exact List.mem_filter.mpr ⟨hmem, by simp [hact, hdl]⟩

theorem claim_C2_amended_witness :
    runFailedJobs 100 faultT1
        ([] ++ viewBasic noUsers (mkActiveRow "A" "T1" "http://hook.one" 10) ::
          [viewBasic noUsers (mkActiveRow "B" "T2" "http://hook.two" 20)])
        storeTwoDue
      = ((runFailedJobs 100 faultT1 [] storeTwoDue).1, true) :=
  (claim_C2_amended 100 faultT1 []
    [viewBasic noUsers (mkActiveRow "B" "T2" "http://hook.two" 20)]
    (viewBasic noUsers (mkActiveRow "A" "T1" "http://hook.one" 10))
    storeTwoDue (by intro k hk; cases hk) (by decide)).1

/-! ### Claim C3 -/

/-- Claim C3: with a webhook that always answers HTTP 500, the timer of
trip `T` is scheduled for retry on each of the four poll cycles at which
it is due, ending `expired` with `retryCount = 3`; moreover the
`retry_count` of every row stays at most `maxRetries = 3` under every
operation sequence, and a poll cycle only attempts delivery for jobs
drawn from rows currently `active` or `pending_retry` (so an `expired`
row is never delivered again). -/
theorem claim_C3 :
    (runOps [] opsFourFailingCycles).map (fun r => (r.status, r.retryCount))
        = [(Status.expired, 3)] ∧
    (∀ (ops : List Op) (s : Store), rcBound s → rcBound (runOps s ops)) ∧
    (∀ (now : Int) (users : UserDir) (s : Store) (j : JobView),
      j ∈ cycleDueJobs now users s →
      ∃ r ∈ s, j.id = r.id ∧
        (r.status = Status.active ∨ r.status = Status.pending_retry)) :=
  ⟨rfl, fun ops s h => runOps_rcBound ops s h,
   fun now users s j hj => cycleDueJobs_from_inflight now users s j hj⟩

theorem claim_C3_witness :
    rcBound (runOps [] opsFourFailingCycles) ∧
    (∃ r ∈ storePendingT, (viewRetry noUsers rowPendingT).id = r.id ∧
      (r.status = Status.active ∨ r.status = Status.pending_retry)) := by
  constructor
  · exact claim_C3.2.1 opsFourFailingCycles [] (by intro r hr; cases hr)
  · exact claim_C3.2.2 60000 noUsers storePendingT
      (viewRetry noUsers rowPendingT) (by decide)

/-! ### Claim C5 -/

/-- Claim C5: a row whose status is terminal (`completed` or `expired`)
is left exactly in place by every subsequent operation — the bulk
completion of a poll cycle, retry scheduling and expiry, a restart's
update or insert, and cancellation all guard on non-terminal statuses, so
the terminal row (status included) persists unchanged through any
sequence of operations. -/
theorem claim_C5 (ops : List Op) (s : Store) (r : Row) (h : r ∈ s)
    (hr : r.status = Status.completed ∨ r.status = Status.expired) :
    r ∈ runOps s ops :=
  runOps_preserves (fun st => r ∈ st)
    (fun now id t url sid dur s' h' =>
      addOrUpdateJob_mem_of_terminal r hr now id t url sid dur s' h')
    (fun t s' h' => removeJob_mem_of_terminal r hr t s' h')
    (fun now ts s' h' => markJobsCompleted_mem_of_terminal r hr now ts s' h')
    (fun now t rc s' h' => scheduleRetry_mem_of_terminal r hr now t rc s' h')
    ops s h

theorem claim_C5_witness :
    rowDoneT ∈ runOps [rowDoneT]
      [Op.start 5 "B" "T" "http://hook.two" none 7, Op.cancel "T",
       Op.retry 9 "T" 0, Op.complete 11 ["T"],
       Op.cycle 20 noUsers net500 noFaults] :=
  claim_C5 _ [rowDoneT] rowDoneT (by simp) (Or.inl rfl)

/-! ### Claim C9 -/

/-- Claim C9 (implicit): the retryable/non-retryable classification of a
delivery failure never influences the resulting state transition — the
poll cycle's reconciliation depends on the network outcomes only through
their success flags (so two environments failing the same requests yield
identical stores, whatever the failure kinds), and concretely an HTTP 404
failure, which the classifier marks non-retryable, is still passed to
`scheduleRetry` and moves the timers to `pending_retry` with
`retryCount = 1`. -/
theorem claim_C9 :
    (∀ (now : Int) (users : UserDir) (faults : StoreFaults) (s : Store)
        (net1 net2 : Net),
      (∀ req, successOf (net1 req) = successOf (net2 req)) →
      processExpiredJobs now users net1 faults s
        = processExpiredJobs now users net2 faults s) ∧
    isRetryableError ⟨none, some 404⟩ = false ∧
    (processExpiredJobs 100 noUsers net404 noFaults storeTwoDue).map
        (fun r => (r.tripId, r.status, r.retryCount))
      = [("T1", Status.pending_retry, 1), ("T2", Status.pending_retry, 1)] := by
  refine ⟨?_, rfl, rfl⟩
  intro now users faults s net1 net2 h
  have hsucc : ∀ j, (processExpiredJob now net1 j).success
      = (processExpiredJob now net2 j).success := by
    intro j
    rw [processExpiredJob_success, processExpiredJob_success, h]
  rw [processExpiredJobs_eq now users net1 faults s,
      processExpiredJobs_eq now users net2 faults s]
  have hok : (cycleDueJobs now users s).filter
        (fun j => (processExpiredJob now net1 j).success)
      = (cycleDueJobs now users s).filter
        (fun j => (processExpiredJob now net2 j).success) :=
    List.filter_congr (fun j _ => by rw [hsucc j])
  have hbad : (cycleDueJobs now users s).filter
        (fun j => !(processExpiredJob now net1 j).success)
      = (cycleDueJobs now users s).filter
        (fun j => !(processExpiredJob now net2 j).success) :=
    List.filter_congr (fun j _ => by rw [hsucc j])
  rw [hok, hbad]

theorem claim_C9_witness :
    processExpiredJobs 100 noUsers net500 noFaults storeTwoDue
      = processExpiredJobs 100 noUsers net404 noFaults storeTwoDue :=
  claim_C9.1 100 noUsers noFaults storeTwoDue net500 net404 (fun _ => rfl)

/-! ### Claim C10 -/

/-- Claim C10: the lifecycle read and cancel operations observe only rows
with status `active` — when every row of a trip is in `pending_retry`,
`completed`, or `expired` (i.e. not `active`), `getJobByTripId` returns
`null` and `removeJob` returns `false` without touching the store; and
every job listed by `readJobs` (hence `getAllJobs`, which delegates to
it) comes from an `active` row, so non-active rows are omitted. -/
theorem claim_C10 :
    (∀ (t : String) (users : UserDir) (s : Store),
      (∀ r ∈ s, r.tripId = t → r.status ≠ Status.active) →
      getJobByTripId t users s = none) ∧
    (∀ (t : String) (s : Store),
      (∀ r ∈ s, r.tripId = t → r.status ≠ Status.active) →
      removeJob t s = (s, false)) ∧
    (∀ (users : UserDir) (s : Store) (j : JobView),
      j ∈ readJobs users s →
      ∃ r ∈ s, r.status = Status.active ∧ j = viewBasic users r) ∧
    (∀ (users : UserDir) (s : Store), getAllJobs users s = readJobs users s) := by
  refine ⟨?_, ?_, ?_, fun _ _ => rfl⟩
  · intro t users s h
    have hnil : s.filter (fun r => r.tripId = t && r.status = Status.active) = [] := by
      rw [List.filter_eq_nil_iff]
      intro r hr
      simp only [Bool.and_eq_true, decide_eq_true_eq, not_and]
      exact h r hr
    simp [getJobByTripId, hnil]
  · intro t s h
    unfold removeJob
    rw [Prod.mk.injEq]
    refine ⟨?_, ?_⟩
    · rw [List.filter_eq_self]
      intro r hr
      simp only [Bool.not_eq_true', Bool.and_eq_false_iff]
      by_cases ht : r.tripId = t
      · exact Or.inr (by simpa using h r hr ht)
      · exact Or.inl (by simpa using ht)
    · rw [List.any_eq_false]
      intro r hr
      simp only [Bool.and_eq_true, decide_eq_true_eq, not_and]
      exact h r hr
  · intro users s j hj
    rcases List.mem_map.mp hj with ⟨r, hr, rfl⟩
    rw [mem_sortByKey] at hr
    rcases List.mem_filter.mp hr with ⟨hmem, hcond⟩
    exact ⟨r, hmem, by simpa using hcond, rfl⟩

theorem claim_C10_witness :
    getJobByTripId "T" noUsers storePendingT = none ∧
    removeJob "T" storePendingT = (storePendingT, false) ∧
    (∃ r ∈ storeTwoDue, r.status = Status.active ∧
      viewBasic noUsers (mkActiveRow "A" "T1" "http://hook.one" 10)
        = viewBasic noUsers r) := by
  refine ⟨?_, ?_, ?_⟩
  · exact claim_C10.1 "T" noUsers storePendingT (by decide)
  · exact claim_C10.2.1 "T" storePendingT (by decide)
  · exact claim_C10.2.2.1 noUsers storeTwoDue
      (viewBasic noUsers (mkActiveRow "A" "T1" "http://hook.one" 10)) (by decide)

/-! ### Claim C4 -/

/-- Claim C4: the delivery failure classifier reports non-retryable
exactly for an HTTP response whose status is in `[400, 500)` other than
408 and 429, provided the error does not carry one of the connection
error codes (which take precedence); everything else — connection-level
errors, timeouts, 5xx responses, 408, 429, and unclassified errors with
no response — is retryable. -/
theorem claim_C4 (e : JsError) :
    isRetryableError e = false ↔
      ((e.code ≠ some "ECONNRESET" ∧ e.code ≠ some "ENOTFOUND" ∧
        e.code ≠ some "ECONNREFUSED" ∧ e.code ≠ some "TIMEOUT") ∧
       ∃ st, e.responseStatus = some st ∧ 400 ≤ st ∧ st < 500 ∧
         st ≠ 408 ∧ st ≠ 429) := by
  obtain ⟨c, st⟩ := e
  cases st with
  | none =>
      simp only [isRetryableError]
      split_ifs <;> simp_all
  | some n =>
      simp only [isRetryableError]
      split_ifs with h1 h2 h3
      · simp only [Bool.or_eq_true, decide_eq_true_eq] at h1
        constructor
        · intro hh; exact absurd hh (by simp)
        · rintro ⟨⟨a1, a2, a3, a4⟩, -⟩
          rcases h1 with ((h | h) | h) | h
          · exact a1 h
          · exact a2 h
          · exact a3 h
          · exact a4 h
      · simp only [decide_eq_true_eq] at h2
        constructor
        · intro hh; exact absurd hh (by simp)
        · rintro ⟨-, st, hst, -, hlt, -, -⟩
          cases hst
          omega
      · simp only [Bool.or_eq_true, decide_eq_true_eq, not_or] at h1
        simp only [Bool.and_eq_true, decide_eq_true_eq] at h3
        constructor
        · intro hh
          simp only [Bool.or_eq_false_iff, decide_eq_false_iff_not,
            Option.some.injEq] at hh
          exact ⟨⟨h1.1.1.1, h1.1.1.2, h1.1.2, h1.2⟩,
            n, rfl, h3.1, h3.2, hh.1, hh.2⟩
        · rintro ⟨-, st, hst, -, -, h408, h429⟩
          cases hst
          simp [Option.some.injEq, h408, h429]
      · simp only [decide_eq_true_eq] at h2
        simp only [Bool.and_eq_true, decide_eq_true_eq, not_and] at h3
        constructor
        · intro hh; exact absurd hh (by simp)
        · rintro ⟨-, st, hst, hge, hlt, -, -⟩
          cases hst
          exact absurd hlt (h3 hge)

/-! ### Claim C7 -/

/-- Claim C7: `parseDuration` accepts exactly the inputs whose trimmed,
lowercased form is `<number><unit>` — a nonempty digit run, an optional
dot-separated fraction, and a unit in `{s, m, h, d}` — with a positive
numeric value (`specDurationForm`, written from the spec's words); it
answers the descriptive format error on malformed input such as `"30x"`
(and the positivity error on zero values); and when `startTimer` is
called with an invalid duration it answers 400 with that message and the
Timer Store is returned untouched — the parse happens before any store
access. -/
theorem claim_C7 :
    (∀ d : String, (∃ n, parseDuration d = Except.ok n) ↔ specDurationForm d) ∧
    parseDuration "30x"
      = Except.error "Invalid duration format. Use formats like: 15s, 30m, 2h, 1d" ∧
    (∀ (now : Int) (newId : String) (users : UserDir)
        (tripId webhookUrl : String) (phoneNumber : Option String)
        (d : String) (s : Store) (msg : String),
      parseDuration d = Except.error msg →
      startTimer now newId users tripId webhookUrl phoneNumber (some d) s
        = (TimerResponse.badRequest "Invalid duration" msg, s)) := by
  refine ⟨parseDuration_ok_iff, rfl, ?_⟩
  intro now newId users tripId webhookUrl phoneNumber d s msg h
  simp only [startTimer]
  rw [h]

theorem claim_C7_witness :
    startTimer 0 "A" noUsers "T" "http://hook.one" none (some "30x") []
      = (TimerResponse.badRequest "Invalid duration"
          "Invalid duration format. Use formats like: 15s, 30m, 2h, 1d", []) :=
  claim_C7.2.2 0 "A" noUsers "T" "http://hook.one" none "30x" []
    "Invalid duration format. Use formats like: 15s, 30m, 2h, 1d" rfl

/-! ### Claim C8 -/

/-- Claim C8: the retry policy maps attempt 0 to 60000 ms, attempt 1 to
300000 ms, attempt 2 to 900000 ms, and every attempt count at or above
the default maximum of 3 to Terminal; on Terminal the scheduler's update
leaves no in-flight row for the trip (they all become `expired`); and
with a ladder shorter than the maximum, an in-range attempt count beyond
the ladder reuses the last defined delay. -/
theorem claim_C8 :
    nextDelay 0 = some 60000 ∧ nextDelay 1 = some 300000 ∧
    nextDelay 2 = some 900000 ∧
    (∀ rc, 3 ≤ rc → nextDelay rc = none) ∧
    (∀ (now : Int) (t : String) (rc : Nat) (s : Store), 3 ≤ rc →
      ∀ r ∈ (scheduleRetry now t rc s).1, r.tripId = t →
        r.status = Status.expired ∨ r.status = Status.completed) ∧
    (∀ (delays : List Nat) (maxR rc d : Nat), rc < maxR →
      delays.length ≤ rc → delays.getLast? = some d →
      nextDelayWith delays maxR rc = some d) := by
  refine ⟨rfl, rfl, rfl, ?_, ?_, ?_⟩
  · intro rc h
    simp [nextDelay, nextDelayWith, maxRetries, h]
  · intro now t rc s hrc r hr ht
    unfold scheduleRetry at hr
    rw [if_pos (by simpa [maxRetries] using hrc)] at hr
    rcases List.mem_map.mp hr with ⟨x, hx, rfl⟩
    by_cases hcond : (decide (x.tripId = t) && inFlight x) = true
    · left
      simp [hcond]
    · rw [if_neg hcond] at ht ⊢
      have hif : inFlight x = false := by
        cases hfl : inFlight x
        · rfl
        · exact absurd (by simp [ht, hfl]) hcond
      cases hstat : x.status <;> simp_all [inFlight]
  · intro delays maxR rc d hlt hlen hlast
    have hget : delays[rc]? = none := List.getElem?_eq_none hlen
    have hgl : delays[delays.length - 1]? = some d := by
      rw [← List.getLast?_eq_getElem?]
      exact hlast
    simp [nextDelayWith, Nat.not_le.mpr hlt, jsIndexOr, hget, hgl]

/-! ### Claim C6 -/

/-- Claim C6: every webhook call issued by a poll cycle is an HTTP POST
for some due job, with `Content-Type: application/json`, the descriptive
`User-Agent: Invoice-Bot-Timer-Webhook/1.0`, a 30-second timeout, and a
JSON body whose fields are exactly tripId, phoneNumber (`null` when
absent or empty), the fixed message, the current timestamp as ISO-8601,
`originalDeadline` derived from the timer's deadline, `retryCount` (0 for
a first attempt), and `isRetry` true exactly when `retryCount > 0`. -/
theorem claim_C6 (now : Int) (users : UserDir) (s : Store)
    (req : HttpRequest) (hreq : req ∈ cycleRequests now users s) :
    ∃ j ∈ cycleDueJobs now users s,
      req = webhookRequest now j ∧
      req.method = Method.post ∧
      req.contentType = "application/json" ∧
      req.userAgent = "Invoice-Bot-Timer-Webhook/1.0" ∧
      req.timeoutMs = 30000 ∧
      req.url = j.webhookUrl ∧
      req.body.tripId = j.tripId ∧
      req.body.phoneNumber = jsOrNull j.phoneNumber ∧
      req.body.message = "Timer selesai" ∧
      req.body.timestamp = isoOf now ∧
      req.body.originalDeadline = isoOf j.deadline ∧
      req.body.retryCount = j.retryCount.getD 0 ∧
      (req.body.isRetry = true ↔ 0 < req.body.retryCount) := by
  rcases List.mem_map.mp hreq with ⟨j, hj, rfl⟩
  refine ⟨j, hj, rfl, rfl, rfl, rfl, rfl, rfl, rfl, rfl, rfl, rfl, rfl, rfl, ?_⟩
  simp [webhookRequest, webhookPayload]

theorem claim_C6_witness :
    ∃ j ∈ cycleDueJobs 100 noUsers storeTwoDue,
      webhookRequest 100 (viewBasic noUsers (mkActiveRow "A" "T1" "http://hook.one" 10))
        = webhookRequest 100 j ∧
      (webhookRequest 100 (viewBasic noUsers (mkActiveRow "A" "T1" "http://hook.one" 10))).method
        = Method.post ∧
      (webhookRequest 100 (viewBasic noUsers (mkActiveRow "A" "T1" "http://hook.one" 10))).contentType
        = "application/json" ∧
      (webhookRequest 100 (viewBasic noUsers (mkActiveRow "A" "T1" "http://hook.one" 10))).userAgent
        = "Invoice-Bot-Timer-Webhook/1.0" ∧
      (webhookRequest 100 (viewBasic noUsers (mkActiveRow "A" "T1" "http://hook.one" 10))).timeoutMs
        = 30000 ∧
      (webhookRequest 100 (viewBasic noUsers (mkActiveRow "A" "T1" "http://hook.one" 10))).url
        = j.webhookUrl ∧
      (webhookRequest 100 (viewBasic noUsers (mkActiveRow "A" "T1" "http://hook.one" 10))).body.tripId
        = j.tripId ∧
      (webhookRequest 100 (viewBasic noUsers (mkActiveRow "A" "T1" "http://hook.one" 10))).body.phoneNumber
        = jsOrNull j.phoneNumber ∧
      (webhookRequest 100 (viewBasic noUsers (mkActiveRow "A" "T1" "http://hook.one" 10))).body.message
        = "Timer selesai" ∧
      (webhookRequest 100 (viewBasic noUsers (mkActiveRow "A" "T1" "http://hook.one" 10))).body.timestamp
        = isoOf 100 ∧
      (webhookRequest 100 (viewBasic noUsers (mkActiveRow "A" "T1" "http://hook.one" 10))).body.originalDeadline
        = isoOf j.deadline ∧
      (webhookRequest 100 (viewBasic noUsers (mkActiveRow "A" "T1" "http://hook.one" 10))).body.retryCount
        = j.retryCount.getD 0 ∧
      ((webhookRequest 100 (viewBasic noUsers (mkActiveRow "A" "T1" "http://hook.one" 10))).body.isRetry = true ↔
        0 < (webhookRequest 100 (viewBasic noUsers (mkActiveRow "A" "T1" "http://hook.one" 10))).body.retryCount) :=
  claim_C6 100 noUsers storeTwoDue
    (webhookRequest 100 (viewBasic noUsers (mkActiveRow "A" "T1" "http://hook.one" 10)))
    (by decide)

theorem claim_C8_witness :
    nextDelay 5 = none ∧
    (rowExpiredT.status = Status.expired ∨
      rowExpiredT.status = Status.completed) ∧
    nextDelayWith [60000] 3 2 = some 60000 := by
  refine ⟨?_, ?_, ?_⟩
  · exact claim_C8.2.2.2.1 5 (by decide)
  · exact claim_C8.2.2.2.2.1 0 "T" 3 storePendingT (by decide) rowExpiredT
      (by decide) rfl
  · exact claim_C8.2.2.2.2.2 [60000] 3 2 60000 (by decide) (by decide) rfl

end InvoiceBot
